import Mathlib

/-!
Shallow embedding of the miner-id coinbase-document protocol engine of
`src/miner_id.cpp` (functions `parseDataRefs`, `verify`,
`MinerId::SetStaticCoinbaseDocument`, `MinerId::SetDynamicCoinbaseDocument`,
`parseCoinbaseDocument`, `FindMinerId`).

Modelling conventions:
* Byte strings (`std::string`, `std::vector<uint8_t>`, script bytes) are
  `Bytes := List Nat`, one entry per byte.
* The JSON value type `UniValue` (an external library; the spec places JSON
  parsing below the level of typed field accessors out of scope) is modelled
  as an inductive with the accessors the source uses (`operator[]`, `exists`,
  `isStr`, `isNum`, `isObject`, `isArray`, `isNull`, `get_str`, `get_int`,
  `get_array`, `write`, `read`).  `write` produces the library's compact
  serialization (no whitespace, insertion order preserved).  `read` is a
  fuel-based JSON parser; numbers are modelled as integer numerals (the
  documents validated by this core only carry integers), and only the
  single-character string escapes are supported — neither limitation is
  exercised by any theorem below.
* Cryptography (SHA-256 + ECDSA, an external capability per the spec) is a
  parameter `C : Crypto`; `C pubKey msg sig` stands for
  `CPubKey(pubKey).Verify(SHA256(msg), sig)` — the message is kept pre-hash
  so that theorems can speak about the exact bytes each verification signs.
* C++ exceptions that can escape the scan (`std::stoi` on a non-numeric
  height string) are modelled with `Except ScanExc`; all other `get_*`
  accessors in the source are reached only behind the corresponding type
  guards and are modelled total.
-/

abbrev Bytes := List Nat

/-- Byte string literal helper: the code points of an ASCII string literal. -/
def strB (s : String) : Bytes := s.data.map Char.toNat

/-- Decimal digits of a natural number, as bytes. -/
def natDec (n : Nat) : Bytes := (Nat.toDigits 10 n).map Char.toNat

/-- Decimal representation of an integer, as bytes. -/
def intDec (n : Int) : Bytes :=
  if n < 0 then 45 :: natDec n.natAbs else natDec n.natAbs

/-- Lowercase hex digit for a nibble, as in the C++ `HexStr` table. -/
def hexDigitChar (n : Nat) : Nat := if n < 10 then 48 + n else 87 + n

/-- C++ `HexStr`: every byte becomes two lowercase hex digits. -/
def hexStr (bs : Bytes) : Bytes :=
  bs.flatMap (fun b => [hexDigitChar (b / 16), hexDigitChar (b % 16)])

def isHexDigitB (b : Nat) : Bool :=
  (48 ≤ b && b ≤ 57) || (97 ≤ b && b ≤ 102) || (65 ≤ b && b ≤ 70)

def hexVal (b : Nat) : Nat :=
  if 48 ≤ b && b ≤ 57 then b - 48
  else if 97 ≤ b && b ≤ 102 then b - 87
  else if 65 ≤ b && b ≤ 70 then b - 55
  else 0

/-- C `isspace`: space and the five control characters 9–13. -/
def isSpaceC (b : Nat) : Bool := b = 32 || (9 ≤ b && b ≤ 13)

/-- C++ `ParseHex`: skip spaces, consume pairs of hex digits, stop at the
first character that does not fit. -/
def parseHex : Bytes → Bytes
  | [] => []
  | b :: rest =>
    if isSpaceC b then parseHex rest
    else if isHexDigitB b then
      match rest with
      | [] => []
      | c :: rest2 =>
        if isHexDigitB c then (hexVal b * 16 + hexVal c) :: parseHex rest2
        else []
    else []

/-- The C++ exceptions that can escape the miner-id scan. -/
inductive ScanExc where
  | stdInvalidArgument : ScanExc
  | stdOutOfRange : ScanExc
deriving DecidableEq, Repr

def dropSpace : Bytes → Bytes
  | [] => []
  | b :: rest => if isSpaceC b then dropSpace rest else b :: rest

def takeDigits : Bytes → Bytes × Bytes
  | [] => ([], [])
  | b :: rest =>
    if 48 ≤ b && b ≤ 57 then
      let p := takeDigits rest
      (b :: p.1, p.2)
    else ([], b :: rest)

def digitsToNat (ds : Bytes) : Nat := ds.foldl (fun acc d => acc * 10 + (d - 48)) 0

/-- `std::stoi`: skip whitespace, optional sign, then at least one decimal
digit (further characters are ignored).  Throws `std::invalid_argument` when
no digits are found and `std::out_of_range` when the value does not fit in a
32-bit `int`. -/
def stoi (s : Bytes) : Except ScanExc Int :=
  let s1 := dropSpace s
  let signed : Bool × Bytes :=
    match s1 with
    | 43 :: r => (false, r)
    | 45 :: r => (true, r)
    | _ => (false, s1)
  let ds := (takeDigits signed.2).1
  if ds.isEmpty then .error .stdInvalidArgument
  else
    let v : Int := (digitsToNat ds : Nat)
    let v := if signed.1 then -v else v
    if v < -2147483648 || 2147483647 < v then .error .stdOutOfRange else .ok v

/-! ## The JSON value model (`UniValue`) -/

inductive UniValue where
  | VNull : UniValue
  | VBool (b : Bool) : UniValue
  | VNum (n : Int) : UniValue
  | VStr (s : Bytes) : UniValue
  | VArr (items : List UniValue) : UniValue
  | VObj (entries : List (Bytes × UniValue)) : UniValue

open UniValue

/-- `UniValue::exists`: true iff the value is an object containing the key. -/
def UniValue.existsKey (v : UniValue) (k : Bytes) : Bool :=
  match v with
  | VObj entries => entries.any (fun e => e.1 == k)
  | _ => false

/-- `UniValue::operator[](key)`: the first entry with the key, else null. -/
def UniValue.idx (v : UniValue) (k : Bytes) : UniValue :=
  match v with
  | VObj entries =>
    match entries.find? (fun e => e.1 == k) with
    | some e => e.2
    | none => VNull
  | _ => VNull

/-- `UniValue::operator[](size_t)`: array element, else null. -/
def UniValue.atIdx (v : UniValue) (i : Nat) : UniValue :=
  match v with
  | VArr items => items.getD i VNull
  | _ => VNull

def UniValue.isNull : UniValue → Bool
  | VNull => true
  | _ => false

def UniValue.isStr : UniValue → Bool
  | VStr _ => true
  | _ => false

def UniValue.isNum : UniValue → Bool
  | VNum _ => true
  | _ => false

def UniValue.isObject : UniValue → Bool
  | VObj _ => true
  | _ => false

def UniValue.isArray : UniValue → Bool
  | VArr _ => true
  | _ => false

def UniValue.get_str : UniValue → Bytes
  | VStr s => s
  | _ => []

def UniValue.get_int : UniValue → Int
  | VNum n => n
  | _ => 0

def UniValue.get_array : UniValue → List UniValue
  | VArr items => items
  | _ => []

def UniValue.size : UniValue → Nat
  | VArr items => items.length
  | VObj entries => entries.length
  | _ => 0

def jsonEscapeByte (b : Nat) : Bytes :=
  if b = 34 then [92, 34]
  else if b = 92 then [92, 92]
  else if b = 8 then [92, 98]
  else if b = 9 then [92, 116]
  else if b = 10 then [92, 110]
  else if b = 12 then [92, 102]
  else if b = 13 then [92, 114]
  else if b < 32 then [92, 117, 48, 48, hexDigitChar (b / 16), hexDigitChar (b % 16)]
  else [b]

def jsonQuote (s : Bytes) : Bytes := 34 :: (s.flatMap jsonEscapeByte) ++ [34]

mutual

/-- `UniValue::write` with no indentation: the compact serialization. -/
def UniValue.write : UniValue → Bytes
  | VNull => strB "null"
  | VBool b => if b then strB "true" else strB "false"
  | VNum n => intDec n
  | VStr s => jsonQuote s
  | VArr items => 91 :: writeElems items ++ [93]
  | VObj entries => 123 :: writeMembers entries ++ [125]

def writeElems : List UniValue → Bytes
  | [] => []
  | [v] => v.write
  | v :: rest => v.write ++ 44 :: writeElems rest

def writeMembers : List (Bytes × UniValue) → Bytes
  | [] => []
  | [(k, v)] => jsonQuote k ++ 58 :: v.write
  | (k, v) :: rest => jsonQuote k ++ 58 :: v.write ++ 44 :: writeMembers rest

end

/-! ### The JSON reader (`UniValue::read`), fuel-based recursive descent -/

def isJsonWs (b : Nat) : Bool := b = 32 || b = 9 || b = 10 || b = 13

def skipWs : Bytes → Bytes
  | [] => []
  | b :: rest => if isJsonWs b then skipWs rest else b :: rest

def parseStringBody : Bytes → Option (Bytes × Bytes)
  | [] => none
  | 34 :: rest => some ([], rest)
  | 92 :: 34 :: rest => (parseStringBody rest).map (fun p => (34 :: p.1, p.2))
  | 92 :: 92 :: rest => (parseStringBody rest).map (fun p => (92 :: p.1, p.2))
  | 92 :: 47 :: rest => (parseStringBody rest).map (fun p => (47 :: p.1, p.2))
  | 92 :: 98 :: rest => (parseStringBody rest).map (fun p => (8 :: p.1, p.2))
  | 92 :: 102 :: rest => (parseStringBody rest).map (fun p => (12 :: p.1, p.2))
  | 92 :: 110 :: rest => (parseStringBody rest).map (fun p => (10 :: p.1, p.2))
  | 92 :: 114 :: rest => (parseStringBody rest).map (fun p => (13 :: p.1, p.2))
  | 92 :: 116 :: rest => (parseStringBody rest).map (fun p => (9 :: p.1, p.2))
  | 92 :: _ => none
  | b :: rest =>
    if b < 32 then none else (parseStringBody rest).map (fun p => (b :: p.1, p.2))

def nextIsNumCont : Bytes → Bool
  | [] => false
  | b :: _ => b = 46 || b = 101 || b = 69

def parseNumberTok (bs : Bytes) : Option (Int × Bytes) :=
  match bs with
  | 45 :: rest =>
    let p := takeDigits rest
    if p.1.isEmpty then none
    else if nextIsNumCont p.2 then none
    else some (-(digitsToNat p.1 : Nat), p.2)
  | _ =>
    let p := takeDigits bs
    if p.1.isEmpty then none
    else if nextIsNumCont p.2 then none
    else some ((digitsToNat p.1 : Nat), p.2)

mutual

def parseVal : Nat → Bytes → Option (UniValue × Bytes)
  | 0, _ => none
  | fuel + 1, bs =>
    match skipWs bs with
    | [] => none
    | 34 :: rest => (parseStringBody rest).map (fun p => (VStr p.1, p.2))
    | 123 :: rest =>
      match skipWs rest with
      | 125 :: rest2 => some (VObj [], rest2)
      | bs2 => (parseMembers fuel bs2).map (fun p => (VObj p.1, p.2))
    | 91 :: rest =>
      match skipWs rest with
      | 93 :: rest2 => some (VArr [], rest2)
      | bs2 => (parseElems fuel bs2).map (fun p => (VArr p.1, p.2))
    | 116 :: 114 :: 117 :: 101 :: rest => some (VBool true, rest)
    | 102 :: 97 :: 108 :: 115 :: 101 :: rest => some (VBool false, rest)
    | 110 :: 117 :: 108 :: 108 :: rest => some (VNull, rest)
    | bs2 => (parseNumberTok bs2).map (fun p => (VNum p.1, p.2))

def parseMembers : Nat → Bytes → Option (List (Bytes × UniValue) × Bytes)
  | 0, _ => none
  | fuel + 1, bs =>
    match skipWs bs with
    | 34 :: rest =>
      match parseStringBody rest with
      | none => none
      | some (key, rest2) =>
        match skipWs rest2 with
        | 58 :: rest3 =>
          match parseVal fuel rest3 with
          | none => none
          | some (v, rest4) =>
            match skipWs rest4 with
            | 44 :: rest5 => (parseMembers fuel rest5).map (fun p => ((key, v) :: p.1, p.2))
            | 125 :: rest5 => some ([(key, v)], rest5)
            | _ => none
        | _ => none
    | _ => none

def parseElems : Nat → Bytes → Option (List UniValue × Bytes)
  | 0, _ => none
  | fuel + 1, bs =>
    match parseVal fuel bs with
    | none => none
    | some (v, rest) =>
      match skipWs rest with
      | 44 :: rest2 => (parseElems fuel rest2).map (fun p => (v :: p.1, p.2))
      | 93 :: rest2 => some ([v], rest2)
      | _ => none

end

/-- `UniValue::read`: parse a complete JSON text (trailing whitespace only). -/
def UniValue.read (bs : Bytes) : Option UniValue :=
  match parseVal (bs.length + 1) bs with
  | none => none
  | some (v, rest) => if (skipWs rest).isEmpty then some v else none

/-! ## Document model -/

/-- `CoinbaseDocument::DataRef` (declared in `miner_id.h`, used by
`parseDataRefs`): a list of brfc identifiers plus a transaction output
reference. -/
structure DataRef where
  brfcIds : List Bytes
  txid : Bytes
  vout : Int
deriving DecidableEq, Repr

/-- Modelled from the spec: external 256-bit-hash parsing (`uint256S`, from
the node utility layer, not under `src/`).  The spec treats the txid only as
an opaque 256-bit reference; it is modelled as the hex text handed to
`uint256S`, which no theorem below inspects further. -/
def uint256S (s : Bytes) : Bytes := s

/-- Modelled from the spec: `CoinbaseDocument` (declared in `miner_id.h`,
not under `src/`) — the validated static identity record of spec §3, with
the fields the constructor call in `SetStaticCoinbaseDocument` supplies and
an optional `dataRefs` attached via `SetDataRefs`. -/
structure CoinbaseDocument where
  version : Bytes
  height : Int
  prevMinerId : Bytes
  prevMinerIdSig : Bytes
  minerId : Bytes
  vctxTxId : Bytes
  vctxVout : Int
  dataRefs : Option (List DataRef)
deriving DecidableEq, Repr

def CoinbaseDocument.empty : CoinbaseDocument :=
  { version := [], height := 0, prevMinerId := [], prevMinerIdSig := [],
    minerId := [], vctxTxId := [], vctxVout := 0, dataRefs := none }

/-- Modelled from the spec: the `MinerId` aggregate (declared in
`miner_id.h`, not under `src/`) — the current coinbase document plus the two
fields `SetStaticCoinbaseDocument` stores for verifying a later dynamic
document (spec §3).  The C++ methods mutate `*this`; here they take and
return the record. -/
structure MinerId where
  coinbaseDocument : CoinbaseDocument
  staticDocumentJson : Bytes
  signatureStaticDocument : Bytes
deriving DecidableEq, Repr

/-- `MinerId()`: the default-constructed, empty aggregate. -/
def MinerId.empty : MinerId :=
  { coinbaseDocument := CoinbaseDocument.empty,
    staticDocumentJson := [], signatureStaticDocument := [] }

/-- Modelled from the spec: `SUPPORTED_VERSIONS` (declared in `miner_id.h`,
not under `src/`); the supported-version set is `{"0.1", "0.2"}` per spec §3. -/
def SUPPORTED_VERSIONS : List Bytes := [strB "0.1", strB "0.2"]

def parseBrfcIds : List UniValue → Option (List Bytes)
  | [] => some []
  | v :: rest =>
    if v.isStr then (parseBrfcIds rest).map (fun ids => v.get_str :: ids)
    else none

def parseRefsList : List UniValue → Option (List DataRef)
  | [] => some []
  | r :: rest =>
    if r.existsKey (strB "brfcIds") && (r.idx (strB "brfcIds")).isArray &&
       r.existsKey (strB "txid") && (r.idx (strB "txid")).isStr &&
       r.existsKey (strB "vout") && (r.idx (strB "vout")).isNum then
      match parseBrfcIds (r.idx (strB "brfcIds")).get_array with
      | none => none
      | some ids =>
        (parseRefsList rest).map (fun tl =>
          DataRef.mk ids (uint256S (r.idx (strB "txid")).get_str)
            ((r.idx (strB "vout")).get_int) :: tl)
    else none

/-- `parseDataRefs` of `miner_id.cpp`: `none` models returning `false`;
`some refs` models returning `true` with `refs` accumulated (empty when the
`dataRefs` field is absent). -/
def parseDataRefs (coinbaseDocument : UniValue) : Option (List DataRef) :=
  if !(coinbaseDocument.existsKey (strB "dataRefs")) then some []
  else
    let data_refs := coinbaseDocument.idx (strB "dataRefs")
    if !(data_refs.isObject && data_refs.existsKey (strB "refs") &&
         (data_refs.idx (strB "refs")).isArray) then none
    else parseRefsList (data_refs.idx (strB "refs")).get_array

/-! ## Signature verification and the two document setters -/

/-- The external crypto capability (spec §1): `C pubKey msg sig` models
`CPubKey(pubKey).Verify(SHA256(msg), sig)` — the anonymous-namespace helper
`verify` of `miner_id.cpp` with the hash step folded into the capability, so
the pre-hash message bytes stay visible to the theorems. -/
abbrev Crypto := Bytes → Bytes → Bytes → Bool

/-- The version-dependent linkage message of `SetStaticCoinbaseDocument`
lines 190–208: version "0.1" keeps `dataToSign` as is, version "0.2"
replaces it with its hex text, any other version hits the unreachable
unsupported-version branch (`none` models its `return false`). -/
def linkageDataToSign (version dataToSign : Bytes) : Option Bytes :=
  if version = strB "0.1" then some dataToSign
  else if version = strB "0.2" then some (hexStr dataToSign)
  else none

/-- The coinbase-document record the success block of
`MinerId::SetStaticCoinbaseDocument` constructs (lines 225–242): the core
fields from the document, then `SetDataRefs` only for a non-empty list. -/
def buildStaticDocument (document : UniValue) (block_height : Int)
    (dataRefs : List DataRef) : CoinbaseDocument :=
  { version := (document.idx (strB "version")).get_str,
    height := block_height,
    prevMinerId := (document.idx (strB "prevMinerId")).get_str,
    prevMinerIdSig := (document.idx (strB "prevMinerIdSig")).get_str,
    minerId := (document.idx (strB "minerId")).get_str,
    vctxTxId := uint256S ((document.idx (strB "vctx")).idx (strB "txId")).get_str,
    vctxVout := ((document.idx (strB "vctx")).idx (strB "vout")).get_int,
    dataRefs := if dataRefs.length != 0 then some dataRefs else none }

/-- `MinerId::SetStaticCoinbaseDocument`.  `.ok (false, self)` models
`return false` (the C++ method mutates nothing before its final success
block); `.error` models the uncaught `std::stoi` exception at line 123.
The C++ locals (`version`, `height`, …) are references into `document` and
are written out in place here. -/
def MinerId.SetStaticCoinbaseDocument (self : MinerId) (C : Crypto)
    (document : UniValue) (signatureBytes : Bytes) (blockHeight : Int) :
    Except ScanExc (Bool × MinerId) :=
  if !((document.idx (strB "version")).isStr &&
       SUPPORTED_VERSIONS.contains (document.idx (strB "version")).get_str) then
    .ok (false, self)
  else if !(document.idx (strB "height")).isStr then .ok (false, self)
  else
    match stoi (document.idx (strB "height")).get_str with
    | .error e => .error e
    | .ok block_height =>
      if block_height != blockHeight then .ok (false, self)
      else if !(document.idx (strB "prevMinerId")).isStr then .ok (false, self)
      else if !(document.idx (strB "prevMinerIdSig")).isStr then .ok (false, self)
      else if !(document.idx (strB "minerId")).isStr then .ok (false, self)
      else if !(document.idx (strB "vctx")).isObject then .ok (false, self)
      else if !((document.idx (strB "vctx")).idx (strB "txId")).isStr then .ok (false, self)
      else if !((document.idx (strB "vctx")).idx (strB "vout")).isNum then .ok (false, self)
      else if !(C (parseHex (document.idx (strB "minerId")).get_str) document.write
                  signatureBytes) then .ok (false, self)
      else
        match linkageDataToSign (document.idx (strB "version")).get_str
            ((document.idx (strB "prevMinerId")).get_str ++
             (document.idx (strB "minerId")).get_str ++
             ((document.idx (strB "vctx")).idx (strB "txId")).get_str) with
        | none => .ok (false, self)
        | some dataToSign =>
          if !(C (parseHex (document.idx (strB "prevMinerId")).get_str) dataToSign
                 (parseHex (document.idx (strB "prevMinerIdSig")).get_str)) then
            .ok (false, self)
          else
            match parseDataRefs document with
            | none => .ok (false, self)
            | some dataRefs =>
              .ok (true,
                { coinbaseDocument := buildStaticDocument document block_height dataRefs,
                  staticDocumentJson := document.write,
                  signatureStaticDocument := signatureBytes })

/-- The present-fields type checks and the dynamic-update signature check of
`MinerId::SetDynamicCoinbaseDocument` lines 269–378, everything before the
dataRefs block.  They read nothing of the aggregate but `staticDocumentJson_`
and `signatureStaticDocument_` (passed here explicitly), and cannot throw. -/
def dynamicChecksOk (C : Crypto) (staticJson staticSig : Bytes)
    (document : UniValue) (signatureBytes : Bytes) (blockHeight : Int) : Bool :=
  ((document.idx (strB "version")).isNull ||
    ((document.idx (strB "version")).isStr &&
     SUPPORTED_VERSIONS.contains (document.idx (strB "version")).get_str)) &&
  ((document.idx (strB "height")).isNull ||
    ((document.idx (strB "height")).isNum &&
     (document.idx (strB "height")).get_int == blockHeight)) &&
  ((document.idx (strB "prevMinerId")).isNull || (document.idx (strB "prevMinerId")).isStr) &&
  ((document.idx (strB "prevMinerIdSig")).isNull ||
    (document.idx (strB "prevMinerIdSig")).isStr) &&
  ((document.idx (strB "minerId")).isNull || (document.idx (strB "minerId")).isStr) &&
  (document.idx (strB "dynamicMinerId")).isStr &&
  ((document.idx (strB "vctx")).isNull ||
    ((document.idx (strB "vctx")).isObject &&
     ((document.idx (strB "vctx")).idx (strB "txId")).isStr &&
     ((document.idx (strB "vctx")).idx (strB "vout")).isNum)) &&
  C (parseHex (document.idx (strB "dynamicMinerId")).get_str)
    (staticJson ++ staticSig ++ document.write) signatureBytes

/-- `MinerId::SetDynamicCoinbaseDocument`: the checks of `dynamicChecksOk`
followed by the conditional dataRefs attachment of lines 380–393. -/
def MinerId.SetDynamicCoinbaseDocument (self : MinerId) (C : Crypto)
    (document : UniValue) (signatureBytes : Bytes) (blockHeight : Int) :
    Except ScanExc (Bool × MinerId) :=
  if !(dynamicChecksOk C self.staticDocumentJson self.signatureStaticDocument
      document signatureBytes blockHeight) then
    .ok (false, self)
  else
    match self.coinbaseDocument.dataRefs with
    | some _ => .ok (true, self)
    | none =>
      match parseDataRefs document with
      | none => .ok (false, self)
      | some dataRefs =>
        if dataRefs.length != 0 then
          .ok (true,
            { self with coinbaseDocument :=
                { self.coinbaseDocument with dataRefs := some dataRefs } })
        else .ok (true, self)

/-- `parseCoinbaseDocument` of `miner_id.cpp`: read the JSON text, then run
the static or dynamic setter. -/
def parseCoinbaseDocument (C : Crypto) (minerId : MinerId)
    (coinbaseDocumentDataJson : Bytes) (signatureBytes : Bytes)
    (blockHeight : Int) (dynamic : Bool) : Except ScanExc (Bool × MinerId) :=
  match UniValue.read coinbaseDocumentDataJson with
  | none => .ok (false, minerId)
  | some coinbaseDocumentData =>
    if !dynamic then
      minerId.SetStaticCoinbaseDocument C coinbaseDocumentData signatureBytes blockHeight
    else
      minerId.SetDynamicCoinbaseDocument C coinbaseDocumentData signatureBytes blockHeight

/-! ## Script scanning (`FindMinerId`) -/

/-- Modelled from the spec: `IsMinerId` (declared in `miner_id.h`, not under
`src/`) — per spec §6 and the comment at `FindMinerId`, the locking script
begins with the fixed 7 bytes `OP_FALSE OP_RETURN 0x04 0xAC1EED88`. -/
def IsMinerId (script : Bytes) : Bool :=
  script.take 7 == [0x00, 0x6a, 0x04, 0xac, 0x1e, 0xed, 0x88]

/-- Modelled from the spec: `CScript::GetOp` (not under `src/`) — per spec
§4.1 it extracts the next pushed-data element as a byte buffer and advances
the cursor, failing when the script is exhausted, the opcode is not a
data-push opcode, or the declared push length exceeds the remaining bytes.
Push opcodes: `0..0x4b` (the opcode is the length), `OP_PUSHDATA1/2/4` with a
little-endian length field. -/
def getOp (pc : Bytes) : Option (Bytes × Bytes) :=
  match pc with
  | [] => none
  | b :: rest =>
    if b ≤ 0x4b then
      if rest.length < b then none else some (rest.take b, rest.drop b)
    else if b = 0x4c then
      match rest with
      | [] => none
      | n :: rest2 =>
        if rest2.length < n then none else some (rest2.take n, rest2.drop n)
    else if b = 0x4d then
      match rest with
      | n0 :: n1 :: rest2 =>
        let n := n0 + 256 * n1
        if rest2.length < n then none else some (rest2.take n, rest2.drop n)
      | _ => none
    else if b = 0x4e then
      match rest with
      | n0 :: n1 :: n2 :: n3 :: rest2 =>
        let n := n0 + 256 * n1 + 65536 * n2 + 16777216 * n3
        if rest2.length < n then none else some (rest2.take n, rest2.drop n)
      | _ => none
    else none

/-- One iteration of the `FindMinerId` output loop (lines 440–553): the body
run on one output's locking script.  Returns `(some m, st)` when this output
is accepted with MinerId `m` (the `return minerId` statements), and
`(none, st)` when the loop moves to the next output with the carried
aggregate in state `st` (the `continue` paths keep it, a failed dynamic
document after a successful static one resets it to `MinerId()`). -/
def evalOutput (C : Crypto) (blockHeight : Int) (minerId : MinerId)
    (script : Bytes) : Except ScanExc (Option MinerId × MinerId) :=
  if !(IsMinerId script) then .ok (none, minerId)
  else
    match getOp (script.drop 7) with
    | none => .ok (none, minerId)
    | some (msgBytes, pc1) =>
      if msgBytes.isEmpty then .ok (none, minerId)
      else
        match getOp pc1 with
        | none => .ok (none, minerId)
        | some (signature, pc2) =>
          if signature.isEmpty then .ok (none, minerId)
          else
            match parseCoinbaseDocument C minerId msgBytes signature blockHeight false with
            | .error e => .error e
            | .ok (false, st) => .ok (none, st)
            | .ok (true, st) =>
              if pc2.isEmpty then .ok (some st, st)
              else
                match getOp pc2 with
                | none => .ok (none, st)
                | some (msgBytes2, pc3) =>
                  match getOp pc3 with
                  | none => .ok (none, st)
                  | some (signature2, _) =>
                    match parseCoinbaseDocument C st msgBytes2 signature2 blockHeight true with
                    | .error e => .error e
                    | .ok (true, st2) => .ok (some st2, st2)
                    | .ok (false, _) => .ok (none, MinerId.empty)

/-- The output loop of `FindMinerId`, carrying the `minerId` aggregate that
the C++ function declares before the loop. -/
def findLoop (C : Crypto) (blockHeight : Int) :
    MinerId → List Bytes → Except ScanExc (Option MinerId)
  | _, [] => .ok none
  | minerId, script :: rest =>
    match evalOutput C blockHeight minerId script with
    | .error e => .error e
    | .ok (some m, _) => .ok (some m)
    | .ok (none, st) => findLoop C blockHeight st rest

/-- A coinbase transaction, reduced to what `FindMinerId` reads: the locking
scripts of its outputs (`tx.vout[i].scriptPubKey`; values are unused). -/
structure CTransaction where
  vout : List Bytes
deriving DecidableEq, Repr

/-- `FindMinerId`: scan the outputs in index order from a fresh aggregate;
`.ok (some m)` is a found MinerId, `.ok none` the `return {}` fall-through,
`.error` an escaped exception. -/
def FindMinerId (C : Crypto) (tx : CTransaction) (blockHeight : Int) :
    Except ScanExc (Option MinerId) :=
  findLoop C blockHeight MinerId.empty tx.vout

set_option maxRecDepth 100000

deriving instance DecidableEq for Except

/-! ## Concrete fixtures used by witnesses and counterexamples -/

/-- An oracle that accepts every signature (signature validity is external). -/
def Ctrue : Crypto := fun _ _ _ => true

/-- A nonempty signature byte buffer fixture. -/
def sigF : Bytes := [1, 2]

/-- A valid static coinbase document for block height 7, already in the
compact form `UniValue.write` produces. -/
def staticDocOkJson : Bytes :=
  strB "\x7b\"version\":\"0.1\",\"height\":\"7\",\"prevMinerId\":\"0a\",\"prevMinerIdSig\":\"0b\",\"minerId\":\"0c\",\"vctx\":\x7b\"txId\":\"0d\",\"vout\":1\x7d\x7d"

/-- The parsed form of `staticDocOkJson`. -/
def docFix : UniValue :=
  match UniValue.read staticDocOkJson with
  | some d => d
  | none => UniValue.VNull

/-- The coinbase-document record built from `staticDocOkJson`. -/
def cdFix : CoinbaseDocument :=
  { version := strB "0.1", height := 7, prevMinerId := strB "0a",
    prevMinerIdSig := strB "0b", minerId := strB "0c",
    vctxTxId := strB "0d", vctxVout := 1, dataRefs := none }

/-- The MinerId aggregate accepted from `staticDocOkJson` with `sigF`. -/
def mFix : MinerId :=
  { coinbaseDocument := cdFix, staticDocumentJson := staticDocOkJson,
    signatureStaticDocument := sigF }

/-- Minimal script push of a data buffer (fixture builder). -/
def pushData (d : Bytes) : Bytes :=
  if d.length ≤ 0x4b then d.length :: d
  else if d.length ≤ 0xff then 0x4c :: d.length :: d
  else 0x4d :: d.length % 256 :: d.length / 256 :: d

/-- The 7-byte miner-id protocol marker bytes. -/
def minerIdMarker : Bytes := [0x00, 0x6a, 0x04, 0xac, 0x1e, 0xed, 0x88]

/-- A locking script carrying a valid static-only miner-id candidate. -/
def goodScript : Bytes := minerIdMarker ++ pushData staticDocOkJson ++ pushData sigF

/-- `staticDocOkJson` with version "0.2". -/
def doc02Json : Bytes :=
  strB "\x7b\"version\":\"0.2\",\"height\":\"7\",\"prevMinerId\":\"0a\",\"prevMinerIdSig\":\"0b\",\"minerId\":\"0c\",\"vctx\":\x7b\"txId\":\"0d\",\"vout\":1\x7d\x7d"

/-- The parsed form of `doc02Json`. -/
def doc02Fix : UniValue :=
  match UniValue.read doc02Json with
  | some d => d
  | none => UniValue.VNull

/-- The MinerId accepted from `doc02Json` with `sigF`. -/
def m02Fix : MinerId :=
  { coinbaseDocument := { cdFix with version := strB "0.2" },
    staticDocumentJson := doc02Json, signatureStaticDocument := sigF }

/-- A minimal valid dynamic document (only the required field). -/
def dynOkJson : Bytes := strB "\x7b\"dynamicMinerId\":\"0e\"\x7d"

/-- The parsed form of `dynOkJson`. -/
def dynDocFix : UniValue :=
  match UniValue.read dynOkJson with
  | some d => d
  | none => UniValue.VNull

/-- A dynamic document missing the required `dynamicMinerId`: rejected. -/
def dynBadJson : Bytes := strB "\x7b\"a\":1\x7d"

/-- Script with a valid static segment followed by a failing dynamic one. -/
def c1Script : Bytes :=
  minerIdMarker ++ pushData staticDocOkJson ++ pushData sigF ++
    pushData dynBadJson ++ pushData sigF

/-- Cursor after the static document push of `c1Script`. -/
def c1pc1 : Bytes := pushData sigF ++ pushData dynBadJson ++ pushData sigF

/-- Cursor after the static signature push of `c1Script`. -/
def c1pc2 : Bytes := pushData dynBadJson ++ pushData sigF

/-- Cursor after the dynamic document push of `c1Script`. -/
def c1pc3 : Bytes := pushData sigF

/-- A static document whose string height does not parse as an integer. -/
def c5DocJson : Bytes := strB "\x7b\"version\":\"0.1\",\"height\":\"xyz\"\x7d"

/-- A marker script embedding `c5DocJson`. -/
def c5Script : Bytes := minerIdMarker ++ pushData c5DocJson ++ pushData sigF

/-- `staticDocOkJson` with extra whitespace: same JSON value, different
bytes; the script text a (hypothetical) byte-for-byte verifier would sign. -/
def c2raw : Bytes :=
  strB "\x7b \"version\":\"0.1\",\"height\":\"7\",\"prevMinerId\":\"0a\",\"prevMinerIdSig\":\"0b\",\"minerId\":\"0c\",\"vctx\":\x7b\"txId\":\"0d\",\"vout\":1\x7d \x7d"

/-- The linkage message of the fixture document (version "0.1"). -/
def c2linkMsg : Bytes := strB "0a" ++ strB "0c" ++ strB "0d"

/-- An oracle accepting exactly the messages the claim predicts for `c2raw`:
the raw script bytes (self-signature) and the linkage concatenation. -/
def cRawOnly : Crypto := fun _ msg _ => decide (msg = c2raw ∨ msg = c2linkMsg)

/-- A static document whose prevMinerId, minerId and vctx.txId are all empty
strings (version "0.1"). -/
def c3d01Json : Bytes :=
  strB "\x7b\"version\":\"0.1\",\"height\":\"7\",\"prevMinerId\":\"\",\"prevMinerIdSig\":\"\",\"minerId\":\"\",\"vctx\":\x7b\"txId\":\"\",\"vout\":0\x7d\x7d"

/-- `c3d01Json` with version "0.2". -/
def c3d02Json : Bytes :=
  strB "\x7b\"version\":\"0.2\",\"height\":\"7\",\"prevMinerId\":\"\",\"prevMinerIdSig\":\"\",\"minerId\":\"\",\"vctx\":\x7b\"txId\":\"\",\"vout\":0\x7d\x7d"

/-- The parsed form of `c3d01Json`. -/
def c3doc01 : UniValue :=
  match UniValue.read c3d01Json with
  | some d => d
  | none => UniValue.VNull

/-- The parsed form of `c3d02Json`. -/
def c3doc02 : UniValue :=
  match UniValue.read c3d02Json with
  | some d => d
  | none => UniValue.VNull

/-- The MinerId accepted from `c3d01Json`. -/
def c3m01 : MinerId :=
  { coinbaseDocument :=
      { version := strB "0.1", height := 7, prevMinerId := [], prevMinerIdSig := [],
        minerId := [], vctxTxId := [], vctxVout := 0, dataRefs := none },
    staticDocumentJson := c3d01Json, signatureStaticDocument := sigF }

/-- The MinerId accepted from `c3d02Json`. -/
def c3m02 : MinerId :=
  { coinbaseDocument :=
      { version := strB "0.2", height := 7, prevMinerId := [], prevMinerIdSig := [],
        minerId := [], vctxTxId := [], vctxVout := 0, dataRefs := none },
    staticDocumentJson := c3d02Json, signatureStaticDocument := sigF }

/-- An oracle whose only accepted linkage message is the empty one (it also
accepts the two self-signature messages of the empty-field documents). -/
def cLinkEmpty : Crypto :=
  fun _ msg _ => decide (msg = c3d01Json ∨ msg = c3d02Json ∨ msg = [])

/-- `staticDocOkJson` with height "8" (mismatching block height 7). -/
def c6StaticJson : Bytes :=
  strB "\x7b\"version\":\"0.1\",\"height\":\"8\",\"prevMinerId\":\"0a\",\"prevMinerIdSig\":\"0b\",\"minerId\":\"0c\",\"vctx\":\x7b\"txId\":\"0d\",\"vout\":1\x7d\x7d"

/-- The parsed form of `c6StaticJson`. -/
def c6doc : UniValue :=
  match UniValue.read c6StaticJson with
  | some d => d
  | none => UniValue.VNull

/-- A dynamic document with numeric height 8 (mismatching block height 7). -/
def c6DynJson : Bytes := strB "\x7b\"dynamicMinerId\":\"0e\",\"height\":8\x7d"

/-- The parsed form of `c6DynJson`. -/
def c6dyn : UniValue :=
  match UniValue.read c6DynJson with
  | some d => d
  | none => UniValue.VNull

/-- `staticDocOkJson` extended with a one-element dataRefs list `[A]`. -/
def c7StaticJson : Bytes :=
  strB "\x7b\"version\":\"0.1\",\"height\":\"7\",\"prevMinerId\":\"0a\",\"prevMinerIdSig\":\"0b\",\"minerId\":\"0c\",\"vctx\":\x7b\"txId\":\"0d\",\"vout\":1\x7d,\"dataRefs\":\x7b\"refs\":[\x7b\"brfcIds\":[\"id1\",\"id2\"],\"txid\":\"aa\",\"vout\":0\x7d]\x7d\x7d"

/-- The parsed form of `c7StaticJson`. -/
def c7doc : UniValue :=
  match UniValue.read c7StaticJson with
  | some d => d
  | none => UniValue.VNull

/-- The data reference `[A]` carried by `c7StaticJson`. -/
def refA : DataRef := DataRef.mk [strB "id1", strB "id2"] (strB "aa") 0

/-- The MinerId accepted from `c7StaticJson`. -/
def c7m : MinerId :=
  { coinbaseDocument := { cdFix with dataRefs := some [refA] },
    staticDocumentJson := c7StaticJson, signatureStaticDocument := sigF }

/-- A valid dynamic document carrying dataRefs `[B]`. -/
def c8DynJson : Bytes :=
  strB "\x7b\"dynamicMinerId\":\"0e\",\"dataRefs\":\x7b\"refs\":[\x7b\"brfcIds\":[\"x\"],\"txid\":\"aa\",\"vout\":0\x7d]\x7d\x7d"

/-- The parsed form of `c8DynJson`. -/
def c8dyn : UniValue :=
  match UniValue.read c8DynJson with
  | some d => d
  | none => UniValue.VNull

/-- The data reference `[B]` carried by `c8DynJson`. -/
def refB : DataRef := DataRef.mk [strB "x"] (strB "aa") 0

/-- `mFix` after the dynamic document `c8dyn` attaches dataRefs `[B]`. -/
def mFixB : MinerId :=
  { mFix with coinbaseDocument := { cdFix with dataRefs := some [refB] } }

/-- `staticDocOkJson` extended with a dataRefs object whose refs array is
empty. -/
def c8StaticJson : Bytes :=
  strB "\x7b\"version\":\"0.1\",\"height\":\"7\",\"prevMinerId\":\"0a\",\"prevMinerIdSig\":\"0b\",\"minerId\":\"0c\",\"vctx\":\x7b\"txId\":\"0d\",\"vout\":1\x7d,\"dataRefs\":\x7b\"refs\":[]\x7d\x7d"

/-- The parsed form of `c8StaticJson`. -/
def c8doc : UniValue :=
  match UniValue.read c8StaticJson with
  | some d => d
  | none => UniValue.VNull

/-- The MinerId the scan builds from `c8StaticJson`. -/
def c8mA : MinerId :=
  match parseCoinbaseDocument Ctrue MinerId.empty c8StaticJson sigF 7 false with
  | .ok (true, m) => m
  | _ => MinerId.empty

/-- The MinerId after `c8mA` additionally accepts the dynamic `c8DynJson`. -/
def c8mB : MinerId :=
  match parseCoinbaseDocument Ctrue c8mA c8DynJson sigF 7 true with
  | .ok (true, m) => m
  | _ => MinerId.empty

/-- A dynamic document whose dataRefs field is malformed (not an object). -/
def c10DynJson : Bytes := strB "\x7b\"dynamicMinerId\":\"0e\",\"dataRefs\":5\x7d"

/-- The parsed form of `c10DynJson`. -/
def c10dyn : UniValue :=
  match UniValue.read c10DynJson with
  | some d => d
  | none => UniValue.VNull

/-- A script without the protocol marker. -/
def nmScript : Bytes := strB "hello"

/-- Every listed output is rejected (from any carried aggregate state). -/
def RejectsAll (C : Crypto) (blockHeight : Int) (outs : List Bytes) : Prop :=
  ∀ st : MinerId, ∀ o ∈ outs, ∃ st', evalOutput C blockHeight st o = .ok (none, st')

/-- The script is accepted with MinerId `m` from any carried state. -/
def AcceptsOut (C : Crypto) (blockHeight : Int) (script : Bytes) (m : MinerId) : Prop :=
  ∀ st : MinerId, evalOutput C blockHeight st script = .ok (some m, m)

/-! ## General lemmas about the embedded functions -/

/-- Inversion of a successful static-document acceptance: every fact the
success path of `SetStaticCoinbaseDocument` establishes on the way. -/
theorem setStatic_ok_true (C : Crypto) (self : MinerId) (document : UniValue)
    (signatureBytes : Bytes) (blockHeight : Int) (st' : MinerId)
    (hAcc : self.SetStaticCoinbaseDocument C document signatureBytes blockHeight =
      .ok (true, st')) :
    ∃ block_height dataRefs dataToSign,
      stoi (document.idx (strB "height")).get_str = .ok block_height ∧
      block_height = blockHeight ∧
      C (parseHex (document.idx (strB "minerId")).get_str) document.write signatureBytes = true ∧
      linkageDataToSign (document.idx (strB "version")).get_str
        ((document.idx (strB "prevMinerId")).get_str ++
         (document.idx (strB "minerId")).get_str ++
         ((document.idx (strB "vctx")).idx (strB "txId")).get_str) = some dataToSign ∧
      C (parseHex (document.idx (strB "prevMinerId")).get_str) dataToSign
        (parseHex (document.idx (strB "prevMinerIdSig")).get_str) = true ∧
      parseDataRefs document = some dataRefs ∧
      st' = { coinbaseDocument := buildStaticDocument document block_height dataRefs,
              staticDocumentJson := document.write,
              signatureStaticDocument := signatureBytes } := by
  simp only [MinerId.SetStaticCoinbaseDocument] at hAcc
  by_cases h1 : (!((document.idx (strB "version")).isStr &&
      SUPPORTED_VERSIONS.contains (document.idx (strB "version")).get_str)) = true
  · rw [if_pos h1] at hAcc; exact absurd hAcc (by simp)
  rw [if_neg h1] at hAcc
  by_cases h2 : (!(document.idx (strB "height")).isStr) = true
  · rw [if_pos h2] at hAcc; exact absurd hAcc (by simp)
  rw [if_neg h2] at hAcc
  rcases hst : stoi (document.idx (strB "height")).get_str with e | bh
  · rw [hst] at hAcc; exact absurd hAcc (by simp)
  rw [hst] at hAcc
  simp only [] at hAcc
  by_cases h3 : (bh != blockHeight) = true
  · rw [if_pos h3] at hAcc; exact absurd hAcc (by simp)
  rw [if_neg h3] at hAcc
  by_cases h4 : (!(document.idx (strB "prevMinerId")).isStr) = true
  · rw [if_pos h4] at hAcc; exact absurd hAcc (by simp)
  rw [if_neg h4] at hAcc
  by_cases h5 : (!(document.idx (strB "prevMinerIdSig")).isStr) = true
  · rw [if_pos h5] at hAcc; exact absurd hAcc (by simp)
  rw [if_neg h5] at hAcc
  by_cases h6 : (!(document.idx (strB "minerId")).isStr) = true
  · rw [if_pos h6] at hAcc; exact absurd hAcc (by simp)
  rw [if_neg h6] at hAcc
  by_cases h7 : (!(document.idx (strB "vctx")).isObject) = true
  · rw [if_pos h7] at hAcc; exact absurd hAcc (by simp)
  rw [if_neg h7] at hAcc
  by_cases h8 : (!((document.idx (strB "vctx")).idx (strB "txId")).isStr) = true
  · rw [if_pos h8] at hAcc; exact absurd hAcc (by simp)
  rw [if_neg h8] at hAcc
  by_cases h9 : (!((document.idx (strB "vctx")).idx (strB "vout")).isNum) = true
  · rw [if_pos h9] at hAcc; exact absurd hAcc (by simp)
  rw [if_neg h9] at hAcc
  by_cases hv1 : (!(C (parseHex (document.idx (strB "minerId")).get_str) document.write
      signatureBytes)) = true
  · rw [if_pos hv1] at hAcc; exact absurd hAcc (by simp)
  rw [if_neg hv1] at hAcc
  rcases hlk : linkageDataToSign (document.idx (strB "version")).get_str
      ((document.idx (strB "prevMinerId")).get_str ++
       (document.idx (strB "minerId")).get_str ++
       ((document.idx (strB "vctx")).idx (strB "txId")).get_str) with _ | d2
  · rw [hlk] at hAcc; exact absurd hAcc (by simp)
  rw [hlk] at hAcc
  simp only [] at hAcc
  by_cases hv2 : (!(C (parseHex (document.idx (strB "prevMinerId")).get_str) d2
      (parseHex (document.idx (strB "prevMinerIdSig")).get_str))) = true
  · rw [if_pos hv2] at hAcc; exact absurd hAcc (by simp)
  rw [if_neg hv2] at hAcc
  rcases hpd : parseDataRefs document with _ | drs
  · rw [hpd] at hAcc; exact absurd hAcc (by simp)
  rw [hpd] at hAcc
  simp only [] at hAcc
  refine ⟨bh, drs, d2, rfl, by simpa using h3, by simpa using hv1, rfl,
    by simpa using hv2, rfl, ?_⟩
  simp only [Except.ok.injEq, Prod.mk.injEq] at hAcc
  exact hAcc.2.symm

/-- Inversion of a successful dynamic-document acceptance. -/
theorem setDynamic_ok_true (C : Crypto) (self : MinerId) (document : UniValue)
    (signatureBytes : Bytes) (blockHeight : Int) (st' : MinerId)
    (hAcc : self.SetDynamicCoinbaseDocument C document signatureBytes blockHeight =
      .ok (true, st')) :
    dynamicChecksOk C self.staticDocumentJson self.signatureStaticDocument document
      signatureBytes blockHeight = true ∧
    ((self.coinbaseDocument.dataRefs ≠ none ∧ st' = self) ∨
     (self.coinbaseDocument.dataRefs = none ∧
      ∃ dataRefs, parseDataRefs document = some dataRefs ∧
        ((dataRefs ≠ [] ∧
          st' = { self with coinbaseDocument :=
                    { self.coinbaseDocument with dataRefs := some dataRefs } }) ∨
         (dataRefs = [] ∧ st' = self)))) := by
  simp only [MinerId.SetDynamicCoinbaseDocument] at hAcc
  by_cases h1 : (!dynamicChecksOk C self.staticDocumentJson self.signatureStaticDocument
      document signatureBytes blockHeight) = true
  · rw [if_pos h1] at hAcc; exact absurd hAcc (by simp)
  rw [if_neg h1] at hAcc
  refine ⟨by simpa using h1, ?_⟩
  rcases hd : self.coinbaseDocument.dataRefs with _ | A
  · rw [hd] at hAcc
    simp only [] at hAcc
    rcases hpd : parseDataRefs document with _ | drs
    · rw [hpd] at hAcc; exact absurd hAcc (by simp)
    rw [hpd] at hAcc
    simp only [] at hAcc
    by_cases hl : (drs.length != 0) = true
    · rw [if_pos hl] at hAcc
      simp only [Except.ok.injEq, Prod.mk.injEq] at hAcc
      refine Or.inr ⟨rfl, drs, rfl, Or.inl ⟨?_, hAcc.2.symm⟩⟩
      simpa [List.length_eq_zero] using hl
    · rw [if_neg hl] at hAcc
      simp only [Except.ok.injEq, Prod.mk.injEq] at hAcc
      exact Or.inr ⟨rfl, drs, rfl,
        Or.inr ⟨by simpa [List.length_eq_zero] using hl, hAcc.2.symm⟩⟩
  · rw [hd] at hAcc
    simp only [Except.ok.injEq, Prod.mk.injEq] at hAcc
    exact Or.inl ⟨by simp, hAcc.2.symm⟩

/-- `hexStr` doubles the byte length. -/
theorem hexStr_length (bs : Bytes) : (hexStr bs).length = 2 * bs.length := by
  induction bs with
  | nil => rfl
  | cons b rest ih => simp [hexStr, List.flatMap_cons] at ih ⊢; omega

/-- A nonempty byte string is never its own hex re-encoding. -/
theorem hexStr_ne_self (bs : Bytes) (h : bs ≠ []) : hexStr bs ≠ bs := by
  intro he
  have hl := hexStr_length bs
  rw [he] at hl
  have hne : bs.length ≠ 0 := fun h0 => h (List.length_eq_zero.mp h0)
  omega

theorem isNum_not_isNull (v : UniValue) (h : v.isNum = true) : v.isNull = false := by
  cases v <;> simp_all [UniValue.isNum, UniValue.isNull]

/-! ## Claim C2 -/

/-- Claim C2, amended: the static self-signature is verified with public key
`minerId` over `document.write()` — the compact re-serialization of the
parsed static document, which is also what is recorded as
`staticDocumentJson` — with the first extracted signature; this equals the
byte-for-byte script text only when that text is already in compact form. -/
theorem c2_self_signature_message (C : Crypto) (st : MinerId)
    (document : UniValue) (sig : Bytes) (h : Int) (st' : MinerId)
    (hAcc : st.SetStaticCoinbaseDocument C document sig h = .ok (true, st')) :
    C (parseHex (document.idx (strB "minerId")).get_str) document.write sig = true ∧
    st'.staticDocumentJson = document.write := by
  obtain ⟨bh, drs, d2, _, _, hv1, _, _, _, hst'⟩ :=
    setStatic_ok_true C st document sig h st' hAcc
  exact ⟨hv1, by rw [hst']⟩

/-- Claim C2, counterexample to the claim as stated: for the whitespace
variant `c2raw` of the fixture document, the oracle accepting exactly the
byte-for-byte script text (plus the linkage message) rejects the output,
while the all-accepting oracle accepts it and records a `staticDocumentJson`
that differs from the script bytes: the verified message is the
re-serialization of the parsed structure, not the extracted text. -/
theorem c2_counterexample :
    parseCoinbaseDocument cRawOnly MinerId.empty c2raw sigF 7 false =
      .ok (false, MinerId.empty) ∧
    parseCoinbaseDocument Ctrue MinerId.empty c2raw sigF 7 false = .ok (true, mFix) ∧
    mFix.staticDocumentJson ≠ c2raw := by decide

/-- Claim C2, witness: the amended theorem at the concrete fixture document. -/
theorem c2_witness :
    Ctrue (parseHex (docFix.idx (strB "minerId")).get_str) docFix.write sigF = true ∧
    mFix.staticDocumentJson = docFix.write :=
  c2_self_signature_message Ctrue MinerId.empty docFix sigF 7 mFix (by decide)

/-! ## Claim C3 -/

/-- Claim C3, amended: on acceptance the linkage signature is verified with
public key `prevMinerId` and signature `prevMinerIdSig` over the raw
concatenation `prevMinerId ∥ minerId ∥ vctx.txId` for version "0.1" and over
its hex re-encoding for version "0.2"; the two messages differ whenever the
concatenation is nonempty (for the empty concatenation they coincide). -/
theorem c3_linkage_message_version_dependence :
    (∀ (C : Crypto) (st : MinerId) (document : UniValue) (sig : Bytes) (h : Int)
       (st' : MinerId),
       st.SetStaticCoinbaseDocument C document sig h = .ok (true, st') →
       (((document.idx (strB "version")).get_str = strB "0.1" →
          C (parseHex (document.idx (strB "prevMinerId")).get_str)
            ((document.idx (strB "prevMinerId")).get_str ++
             (document.idx (strB "minerId")).get_str ++
             ((document.idx (strB "vctx")).idx (strB "txId")).get_str)
            (parseHex (document.idx (strB "prevMinerIdSig")).get_str) = true) ∧
        ((document.idx (strB "version")).get_str = strB "0.2" →
          C (parseHex (document.idx (strB "prevMinerId")).get_str)
            (hexStr ((document.idx (strB "prevMinerId")).get_str ++
                     (document.idx (strB "minerId")).get_str ++
                     ((document.idx (strB "vctx")).idx (strB "txId")).get_str))
            (parseHex (document.idx (strB "prevMinerIdSig")).get_str) = true))) ∧
    (∀ s : Bytes, s ≠ [] → hexStr s ≠ s) := by
  constructor
  · intro C st document sig h st' hAcc
    obtain ⟨bh, drs, d2, _, _, _, hlk, hv2, _, _⟩ :=
      setStatic_ok_true C st document sig h st' hAcc
    constructor
    · intro hver
      rw [hver, linkageDataToSign, if_pos rfl, Option.some.injEq] at hlk
      rwa [hlk]
    · intro hver
      rw [hver, linkageDataToSign, if_neg (by decide), if_pos rfl,
        Option.some.injEq] at hlk
      rwa [hlk]
  · exact hexStr_ne_self

/-- Claim C3, counterexample to the claim as stated: with all three fields
empty the "0.1" and "0.2" linkage messages coincide (hex of the empty string
is empty), and both empty-field documents are accepted by an oracle whose
only linkage message it accepts is the empty one. -/
theorem c3_counterexample :
    linkageDataToSign (strB "0.1") ([] ++ [] ++ []) =
      linkageDataToSign (strB "0.2") ([] ++ [] ++ []) ∧
    MinerId.empty.SetStaticCoinbaseDocument cLinkEmpty c3doc01 sigF 7 =
      .ok (true, c3m01) ∧
    MinerId.empty.SetStaticCoinbaseDocument cLinkEmpty c3doc02 sigF 7 =
      .ok (true, c3m02) := by decide

/-- Claim C3, witness: the amended theorem at the version-"0.1" and
version-"0.2" fixture documents and at a nonempty concatenation. -/
theorem c3_witness :
    (Ctrue (parseHex (docFix.idx (strB "prevMinerId")).get_str)
      ((docFix.idx (strB "prevMinerId")).get_str ++
       (docFix.idx (strB "minerId")).get_str ++
       ((docFix.idx (strB "vctx")).idx (strB "txId")).get_str)
      (parseHex (docFix.idx (strB "prevMinerIdSig")).get_str) = true) ∧
    (Ctrue (parseHex (doc02Fix.idx (strB "prevMinerId")).get_str)
      (hexStr ((doc02Fix.idx (strB "prevMinerId")).get_str ++
               (doc02Fix.idx (strB "minerId")).get_str ++
               ((doc02Fix.idx (strB "vctx")).idx (strB "txId")).get_str))
      (parseHex (doc02Fix.idx (strB "prevMinerIdSig")).get_str) = true) ∧
    hexStr (strB "a") ≠ strB "a" :=
  ⟨(c3_linkage_message_version_dependence.1 Ctrue MinerId.empty docFix sigF 7 mFix
      (by decide)).1 (by decide),
   (c3_linkage_message_version_dependence.1 Ctrue MinerId.empty doc02Fix sigF 7 m02Fix
      (by decide)).2 (by decide),
   c3_linkage_message_version_dependence.2 (strB "a") (by decide)⟩

/-! ## Claim C4 -/

/-- Claim C4: a dynamic document is accepted only if the dynamic-update
signature verifies with public key `dynamicMinerId` over the raw byte
concatenation `staticDocumentJson ∥ staticSignatureBytes ∥ dynamicDocumentText`
(where the static signature bytes are recorded raw, not hex-encoded, by the
static setter), with the signature extracted alongside the dynamic document. -/
theorem c4_dynamic_update_signature_message :
    (∀ (C : Crypto) (st : MinerId) (document : UniValue) (sig : Bytes) (h : Int)
       (st' : MinerId),
       st.SetDynamicCoinbaseDocument C document sig h = .ok (true, st') →
       C (parseHex (document.idx (strB "dynamicMinerId")).get_str)
         (st.staticDocumentJson ++ st.signatureStaticDocument ++ document.write)
         sig = true) ∧
    (∀ (C : Crypto) (st : MinerId) (document : UniValue) (sig : Bytes) (h : Int)
       (st' : MinerId),
       st.SetStaticCoinbaseDocument C document sig h = .ok (true, st') →
       st'.signatureStaticDocument = sig) := by
  constructor
  · intro C st document sig h st' hAcc
    have hchk := (setDynamic_ok_true C st document sig h st' hAcc).1
    simp only [dynamicChecksOk, Bool.and_eq_true] at hchk
    exact hchk.2
  · intro C st document sig h st' hAcc
    obtain ⟨bh, drs, d2, _, _, _, _, _, _, hst'⟩ :=
      setStatic_ok_true C st document sig h st' hAcc
    rw [hst']

/-- Claim C4, witness: the theorem at a concrete accepted dynamic document
over the fixture static acceptance. -/
theorem c4_witness :
    Ctrue (parseHex (dynDocFix.idx (strB "dynamicMinerId")).get_str)
      (mFix.staticDocumentJson ++ mFix.signatureStaticDocument ++ dynDocFix.write)
      sigF = true ∧
    mFix.signatureStaticDocument = sigF :=
  ⟨c4_dynamic_update_signature_message.1 Ctrue mFix dynDocFix sigF 7 mFix (by decide),
   c4_dynamic_update_signature_message.2 Ctrue MinerId.empty docFix sigF 7 mFix
     (by decide)⟩

/-! ## Claim C6 -/

/-- Claim C6: a height mismatch always rejects the candidate, for any crypto
oracle — a static document whose string height parses to a value different
from the block height, and a dynamic document with a numeric height different
from the block height, are both rejected before (or regardless of) signature
validity. -/
theorem c6_height_mismatch_rejects :
    (∀ (C : Crypto) (st : MinerId) (document : UniValue) (sig : Bytes)
       (blockHeight v : Int),
       (document.idx (strB "height")).isStr = true →
       stoi (document.idx (strB "height")).get_str = .ok v →
       v ≠ blockHeight →
       st.SetStaticCoinbaseDocument C document sig blockHeight = .ok (false, st)) ∧
    (∀ (C : Crypto) (st : MinerId) (document : UniValue) (sig : Bytes)
       (blockHeight : Int),
       (document.idx (strB "height")).isNum = true →
       (document.idx (strB "height")).get_int ≠ blockHeight →
       st.SetDynamicCoinbaseDocument C document sig blockHeight = .ok (false, st)) := by
  constructor
  · intro C st document sig blockHeight v hstr hstoi hne
    simp only [MinerId.SetStaticCoinbaseDocument]
    by_cases h1 : (!((document.idx (strB "version")).isStr &&
        SUPPORTED_VERSIONS.contains (document.idx (strB "version")).get_str)) = true
    · rw [if_pos h1]
    · rw [if_neg h1, if_neg (by simp [hstr]), hstoi]
      simp only []
      rw [if_pos (by simp [hne])]
  · intro C st document sig blockHeight hnum hne
    have h0 := isNum_not_isNull _ hnum
    simp only [MinerId.SetDynamicCoinbaseDocument]
    rw [if_pos (by simp [dynamicChecksOk, h0, hne])]

/-- Claim C6, witness: the theorem at the height-8 fixtures against block
height 7. -/
theorem c6_witness :
    MinerId.empty.SetStaticCoinbaseDocument Ctrue c6doc sigF 7 =
      .ok (false, MinerId.empty) ∧
    mFix.SetDynamicCoinbaseDocument Ctrue c6dyn sigF 7 = .ok (false, mFix) :=
  ⟨c6_height_mismatch_rejects.1 Ctrue MinerId.empty c6doc sigF 7 8
     (by decide) (by decide) (by decide),
   c6_height_mismatch_rejects.2 Ctrue mFix c6dyn sigF 7 (by decide) (by decide)⟩

/-! ## Claim C7 -/

/-- Claim C7: dataRefs merge policy — a successful static setter attaches
exactly the (nonempty) parsed static dataRefs; an accepted dynamic document
leaves already-present dataRefs untouched; and when the static document
carried none, an accepted dynamic document with nonempty parsed dataRefs
attaches those. -/
theorem c7_dataRefs_merge :
    (∀ (C : Crypto) (st : MinerId) (document : UniValue) (sig : Bytes) (h : Int)
       (st' : MinerId) (drs : List DataRef),
       st.SetStaticCoinbaseDocument C document sig h = .ok (true, st') →
       parseDataRefs document = some drs →
       st'.coinbaseDocument.dataRefs = if drs = [] then none else some drs) ∧
    (∀ (C : Crypto) (st : MinerId) (document : UniValue) (sig : Bytes) (h : Int)
       (st' : MinerId) (A : List DataRef),
       st.coinbaseDocument.dataRefs = some A →
       st.SetDynamicCoinbaseDocument C document sig h = .ok (true, st') →
       st'.coinbaseDocument.dataRefs = some A) ∧
    (∀ (C : Crypto) (st : MinerId) (document : UniValue) (sig : Bytes) (h : Int)
       (st' : MinerId) (drs : List DataRef),
       st.coinbaseDocument.dataRefs = none →
       st.SetDynamicCoinbaseDocument C document sig h = .ok (true, st') →
       parseDataRefs document = some drs → drs ≠ [] →
       st'.coinbaseDocument.dataRefs = some drs) := by
  refine ⟨?_, ?_, ?_⟩
  · intro C st document sig h st' drs hAcc hpd
    obtain ⟨bh, drs', d2, _, _, _, _, _, hpd', hst'⟩ :=
      setStatic_ok_true C st document sig h st' hAcc
    have hdd : drs' = drs := by
      rw [hpd'] at hpd
      exact Option.some.inj hpd
    subst hdd
    rw [hst']
    simp only [buildStaticDocument]
    cases drs' <;> simp
  · intro C st document sig h st' A hA hAcc
    rcases (setDynamic_ok_true C st document sig h st' hAcc).2 with
      ⟨_, rfl⟩ | ⟨hnone, _⟩
    · exact hA
    · rw [hA] at hnone
      exact absurd hnone (by simp)
  · intro C st document sig h st' drs hnone hAcc hpd hne
    rcases (setDynamic_ok_true C st document sig h st' hAcc).2 with
      ⟨hne', _⟩ | ⟨_, drs', hpd', hcase⟩
    · exact absurd hnone hne'
    · have hdd : drs' = drs := by
        rw [hpd'] at hpd
        exact Option.some.inj hpd
      subst hdd
      rcases hcase with ⟨_, rfl⟩ | ⟨hnil, _⟩
      · simp
      · exact absurd hnil hne

/-- Claim C7, witness: the theorem at the fixture documents — static with
`[A]`, dynamic ignored while `[A]` is present, dynamic `[B]` attached when
the static document carried none. -/
theorem c7_witness :
    c7m.coinbaseDocument.dataRefs = (if [refA] = [] then none else some [refA]) ∧
    c7m.coinbaseDocument.dataRefs = some [refA] ∧
    mFixB.coinbaseDocument.dataRefs = some [refB] :=
  ⟨c7_dataRefs_merge.1 Ctrue MinerId.empty c7doc sigF 7 c7m [refA]
     (by decide) (by decide),
   c7_dataRefs_merge.2.1 Ctrue c7m c8dyn sigF 7 c7m [refA] (by decide) (by decide),
   c7_dataRefs_merge.2.2 Ctrue mFix c8dyn sigF 7 mFixB [refB]
     (by decide) (by decide) (by decide) (by decide)⟩

/-! ## Claim C8 -/

/-- Claim C8, amended: an accepted static document whose dataRefs object has
an empty refs array records *no* dataRefs — indistinguishable from dataRefs
being absent — and consequently a subsequently accepted dynamic document's
nonempty dataRefs are attached rather than ignored. -/
theorem c8_empty_refs_recorded_as_absent :
    (∀ (C : Crypto) (st : MinerId) (document : UniValue) (sig : Bytes) (h : Int)
       (st' : MinerId),
       st.SetStaticCoinbaseDocument C document sig h = .ok (true, st') →
       parseDataRefs document = some [] →
       st'.coinbaseDocument.dataRefs = none) ∧
    (∀ (C : Crypto) (st : MinerId) (document : UniValue) (sig : Bytes) (h : Int)
       (st' : MinerId) (drs : List DataRef),
       st.coinbaseDocument.dataRefs = none →
       st.SetDynamicCoinbaseDocument C document sig h = .ok (true, st') →
       parseDataRefs document = some drs → drs ≠ [] →
       st'.coinbaseDocument.dataRefs = some drs) := by
  constructor
  · intro C st document sig h st' hAcc hpd
    obtain ⟨bh, drs', d2, _, _, _, _, _, hpd', hst'⟩ :=
      setStatic_ok_true C st document sig h st' hAcc
    have hdd : drs' = [] := by
      rw [hpd'] at hpd
      exact Option.some.inj hpd
    subst hdd
    rw [hst']
    simp [buildStaticDocument]
  · intro C st document sig h st' drs hnone hAcc hpd hne
    rcases (setDynamic_ok_true C st document sig h st' hAcc).2 with
      ⟨hne', _⟩ | ⟨_, drs', hpd', hcase⟩
    · exact absurd hnone hne'
    · have hdd : drs' = drs := by
        rw [hpd'] at hpd
        exact Option.some.inj hpd
      subst hdd
      rcases hcase with ⟨_, rfl⟩ | ⟨hnil, _⟩
      · simp
      · exact absurd hnil hne

/-- Claim C8, counterexample to the claim as stated: the static fixture with
`"dataRefs":{"refs":[]}` is accepted but the resulting MinerId records *no*
dataRefs (there is no provided-but-empty state), and the subsequently
accepted dynamic document's dataRefs `[B]` are attached, not ignored. -/
theorem c8_counterexample :
    parseCoinbaseDocument Ctrue MinerId.empty c8StaticJson sigF 7 false =
      .ok (true, c8mA) ∧
    c8mA.coinbaseDocument.dataRefs = none ∧
    parseCoinbaseDocument Ctrue c8mA c8DynJson sigF 7 true = .ok (true, c8mB) ∧
    c8mB.coinbaseDocument.dataRefs = some [refB] := by decide

/-- Claim C8, witness: the amended theorem at the empty-refs fixture and at
the dynamic attach that follows it. -/
theorem c8_witness :
    c8mA.coinbaseDocument.dataRefs = none ∧
    c8mB.coinbaseDocument.dataRefs = some [refB] :=
  ⟨c8_empty_refs_recorded_as_absent.1 Ctrue MinerId.empty c8doc sigF 7 c8mA
     (by decide) (by decide),
   c8_empty_refs_recorded_as_absent.2 Ctrue c8mA c8dyn sigF 7 c8mB [refB]
     (by decide) (by decide) (by decide) (by decide)⟩

/-! ## Claim C10 -/

/-- Claim C10: when the static document already carried dataRefs, the
dataRefs field of an accepted-signature dynamic document is never parsed —
the same dynamic document with a malformed dataRefs shape is accepted with
dataRefs present but rejected when the static document carried none. -/
theorem c10_dynamic_dataRefs_unchecked_when_static_has_them
    (C : Crypto) (cd : CoinbaseDocument) (json sg : Bytes) (drs : List DataRef)
    (document : UniValue) (sig : Bytes) (h : Int) (st1' : MinerId)
    (hAcc : (MinerId.mk { cd with dataRefs := some drs } json sg).SetDynamicCoinbaseDocument
       C document sig h = .ok (true, st1'))
    (hBad : parseDataRefs document = none) :
    (MinerId.mk { cd with dataRefs := none } json sg).SetDynamicCoinbaseDocument
       C document sig h =
      .ok (false, MinerId.mk { cd with dataRefs := none } json sg) := by
  have hchk := (setDynamic_ok_true _ _ _ _ _ _ hAcc).1
  simp only [MinerId.SetDynamicCoinbaseDocument]
  rw [if_neg (by simp [hchk])]
  simp [hBad]

/-- Claim C10, witness: the theorem at the malformed-dataRefs dynamic
fixture over the static fixture document. -/
theorem c10_witness :
    (MinerId.mk { cdFix with dataRefs := none } staticDocOkJson sigF).SetDynamicCoinbaseDocument
       Ctrue c10dyn sigF 7 =
      .ok (false, MinerId.mk { cdFix with dataRefs := none } staticDocOkJson sigF) :=
  c10_dynamic_dataRefs_unchecked_when_static_has_them Ctrue cdFix staticDocOkJson sigF
    [refA] c10dyn sigF 7
    (MinerId.mk { cdFix with dataRefs := some [refA] } staticDocOkJson sigF)
    (by decide) (by decide)

/-! ## Claim C5 -/

/-- Claim C5 (the code violates it): a static document whose string height
does not parse as an integer makes `std::stoi` throw, and nothing in
`FindMinerId` catches it — the scan does not terminate with found/not-found
but with an escaped `std::invalid_argument`. -/
theorem c5_stoi_exception_escapes_scan :
    FindMinerId Ctrue ⟨[c5Script]⟩ 7 = .error .stdInvalidArgument := by decide

/-! ## Claim C1 -/

/-- Claim C1: when a coinbase output's static segment is accepted but a
dynamic segment is present and fails (extraction of either element, or
parsing/validation/verification), `FindMinerId` rejects the whole output —
`evalOutput` yields no MinerId for it — and the scan continues exactly as the
scan of the remaining outputs from the carried state. -/
theorem c1_dynamic_failure_rejects_whole_output
    (C : Crypto) (blockHeight : Int) (st st1 : MinerId) (script : Bytes)
    (msgBytes signature pc1 pc2 : Bytes)
    (hMarker : IsMinerId script = true)
    (hOp1 : getOp (script.drop 7) = some (msgBytes, pc1))
    (hNe1 : msgBytes.isEmpty = false)
    (hOp2 : getOp pc1 = some (signature, pc2))
    (hNe2 : signature.isEmpty = false)
    (hStatic : parseCoinbaseDocument C st msgBytes signature blockHeight false =
      .ok (true, st1))
    (hDyn : pc2.isEmpty = false)
    (hFail : getOp pc2 = none ∨
      ∃ m2 pc3, getOp pc2 = some (m2, pc3) ∧
        (getOp pc3 = none ∨
         ∃ s2 pc4 st2, getOp pc3 = some (s2, pc4) ∧
           parseCoinbaseDocument C st1 m2 s2 blockHeight true = .ok (false, st2))) :
    ∃ st', evalOutput C blockHeight st script = .ok (none, st') ∧
      ∀ rest, findLoop C blockHeight st (script :: rest) =
        findLoop C blockHeight st' rest := by
  have hEval : ∃ st', evalOutput C blockHeight st script = .ok (none, st') := by
    rcases hFail with hf | ⟨m2, pc3, hop3, hf4 | ⟨s2, pc4, st2, hop4, hdynf⟩⟩
    · exact ⟨st1, by
        simp only [evalOutput]
        rw [if_neg (by simp [hMarker]), hOp1]
        simp only []
        rw [if_neg (by simp [hNe1]), hOp2]
        simp only []
        rw [if_neg (by simp [hNe2]), hStatic]
        simp only []
        rw [if_neg (by simp [hDyn]), hf]⟩
    · exact ⟨st1, by
        simp only [evalOutput]
        rw [if_neg (by simp [hMarker]), hOp1]
        simp only []
        rw [if_neg (by simp [hNe1]), hOp2]
        simp only []
        rw [if_neg (by simp [hNe2]), hStatic]
        simp only []
        rw [if_neg (by simp [hDyn]), hop3]
        simp only []
        rw [hf4]⟩
    · exact ⟨MinerId.empty, by
        simp only [evalOutput]
        rw [if_neg (by simp [hMarker]), hOp1]
        simp only []
        rw [if_neg (by simp [hNe1]), hOp2]
        simp only []
        rw [if_neg (by simp [hNe2]), hStatic]
        simp only []
        rw [if_neg (by simp [hDyn]), hop3]
        simp only []
        rw [hop4]
        simp only []
        rw [hdynf]⟩
  obtain ⟨st', he⟩ := hEval
  refine ⟨st', he, fun rest => ?_⟩
  simp only [findLoop, he]

/-- Claim C1, witness: the theorem at the concrete script whose dynamic
document lacks `dynamicMinerId`. -/
theorem c1_witness :
    ∃ st', evalOutput Ctrue 7 MinerId.empty c1Script = .ok (none, st') ∧
      ∀ rest, findLoop Ctrue 7 MinerId.empty (c1Script :: rest) =
        findLoop Ctrue 7 st' rest :=
  c1_dynamic_failure_rejects_whole_output Ctrue 7 MinerId.empty mFix c1Script
    staticDocOkJson sigF c1pc1 c1pc2
    (by decide) (by decide) (by decide) (by decide) (by decide) (by decide) (by decide)
    (Or.inr ⟨dynBadJson, c1pc3, by decide,
      Or.inr ⟨sigF, [], mFix, by decide, by decide⟩⟩)

/-! ## Claim C9 -/

/-- The output loop returns "not found" when every output rejects. -/
theorem findLoop_rejects_all (C : Crypto) (blockHeight : Int) :
    ∀ (outs : List Bytes), RejectsAll C blockHeight outs →
      ∀ st, findLoop C blockHeight st outs = .ok none := by
  intro outs
  induction outs with
  | nil => intro _ st; rfl
  | cons o rest ih =>
    intro hrej st
    obtain ⟨st', he⟩ := hrej st o (List.mem_cons_self o rest)
    have htail : RejectsAll C blockHeight rest :=
      fun st2 o2 ho2 => hrej st2 o2 (List.mem_cons_of_mem o ho2)
    calc findLoop C blockHeight st (o :: rest)
        = findLoop C blockHeight st' rest := by simp only [findLoop, he]
      _ = .ok none := ih htail st'

/-- The first accepting output wins, whatever follows it. -/
theorem findLoop_first_accept (C : Crypto) (blockHeight : Int) :
    ∀ (pre : List Bytes) (script : Bytes) (rest : List Bytes) (m : MinerId),
      RejectsAll C blockHeight pre → AcceptsOut C blockHeight script m →
      ∀ st, findLoop C blockHeight st (pre ++ script :: rest) = .ok (some m) := by
  intro pre
  induction pre with
  | nil =>
    intro script rest m _ hacc st
    simp only [List.nil_append, findLoop, hacc st]
  | cons o pre2 ih =>
    intro script rest m hrej hacc st
    obtain ⟨st', he⟩ := hrej st o (List.mem_cons_self o pre2)
    have htail : RejectsAll C blockHeight pre2 :=
      fun st2 o2 ho2 => hrej st2 o2 (List.mem_cons_of_mem o ho2)
    calc findLoop C blockHeight st ((o :: pre2) ++ script :: rest)
        = findLoop C blockHeight st' (pre2 ++ script :: rest) := by
          simp only [List.cons_append, findLoop, he]
          rfl
      _ = .ok (some m) := ih script rest m htail hacc st'

/-- Claim C9: outputs are scanned in index order and the first acceptance
wins — if every output rejects the result is "no identity found", and if the
outputs are a rejecting prefix, then an accepting output, then anything, the
result is precisely that output's identity. -/
theorem c9_scanning_order :
    (∀ (C : Crypto) (blockHeight : Int) (outs : List Bytes),
       RejectsAll C blockHeight outs →
       FindMinerId C ⟨outs⟩ blockHeight = .ok none) ∧
    (∀ (C : Crypto) (blockHeight : Int) (pre : List Bytes) (script : Bytes)
       (rest : List Bytes) (m : MinerId),
       RejectsAll C blockHeight pre → AcceptsOut C blockHeight script m →
       FindMinerId C ⟨pre ++ script :: rest⟩ blockHeight = .ok (some m)) :=
  ⟨fun C bh outs hrej => findLoop_rejects_all C bh outs hrej MinerId.empty,
   fun C bh pre script rest m hrej hacc =>
     findLoop_first_accept C bh pre script rest m hrej hacc MinerId.empty⟩

/-- Claim C9, witness: two non-marker outputs are skipped, the first valid
candidate (of two) at index 2 wins, at the concrete fixtures. -/
theorem c9_witness :
    RejectsAll Ctrue 7 [nmScript, nmScript] ∧
    AcceptsOut Ctrue 7 goodScript mFix ∧
    FindMinerId Ctrue ⟨[nmScript, nmScript, goodScript, goodScript]⟩ 7 =
      .ok (some mFix) := by
  have hrej : RejectsAll Ctrue 7 [nmScript, nmScript] := by
    intro st o ho
    rcases List.mem_cons.mp ho with rfl | ho2
    · exact ⟨st, rfl⟩
    rcases List.mem_cons.mp ho2 with rfl | ho3
    · exact ⟨st, rfl⟩
    · exact absurd ho3 (List.not_mem_nil o)
  have hacc : AcceptsOut Ctrue 7 goodScript mFix := fun st => rfl
  exact ⟨hrej, hacc,
    c9_scanning_order.2 Ctrue 7 [nmScript, nmScript] goodScript [goodScript] mFix
      hrej hacc⟩
